import Mathlib

/-!
Verification of temper.py, a USB thermometer reader and web service.
The file gives a shallow embedding of the device topology scanner, the
HID and serial protocol decoders, the acquisition orchestrator and the
HTTP request handlers of src/temper.py, and proves theorems checking
the specification claims against that embedding.

Conventions: Python byte strings are `List Nat` with values 0..255,
Python floats are rationals, Python dicts are association lists in
insertion order, and raised exceptions are `Except` errors.
-/

attribute [local semireducible] Rat.mul Rat.add Rat.inv

/-- A Python exception class, restricted to the ones the embedded code
can raise: IndexError (list index out of range), AttributeError
(missing attribute lookup), ValueError (failed int or float parse),
RuntimeError (raised explicitly in the firmware query), and
FileNotFoundError (a device node vanished). -/
inductive PyExc where
  | indexError : PyExc
  | attributeError : PyExc
  | valueError : PyExc
  | runtimeError : PyExc
  | fileNotFound : PyExc

deriving DecidableEq

/-- A Python value as stored in the info dictionaries of temper.py:
integers (vendor and product ids, bus and device numbers), floats
(temperatures and humidities, modelled as rationals), strings, and the
list of candidate interface names. -/
inductive PyVal where
  | int : Int → PyVal
  | num : ℚ → PyVal
  | str : String → PyVal
  | strList : List String → PyVal

deriving DecidableEq

deriving instance DecidableEq for Except

/-- A Python dict with string keys, modelled as an association list in
insertion order (Python dicts preserve insertion order). Dicts built
by the embedded code have at most one binding per key. -/
abbrev Dict := List (String × PyVal)

/-- Dictionary lookup `d[k]`, returning the first binding of the key. -/
def dictLookup : Dict → String → Option PyVal
  | [], _ => none
  | (k, v) :: rest, q => if q = k then some v else dictLookup rest q

/-- Python assignment `d[k] = v`: replaces the value in place if the key
exists (keeping its position), otherwise appends the new binding at the
end, as Python dicts do. -/
def dictInsert : Dict → String → PyVal → Dict
  | [], k, v => [(k, v)]
  | (k0, v0) :: rest, k, v =>
      if k = k0 then (k0, v) :: rest else (k0, v0) :: dictInsert rest k v

/-- Python dict merge as in the expression with a double unpacking of
a then b: start from a and assign every binding of b in order, so the
bindings of b win on key collisions. -/
def mergeDicts (a b : Dict) : Dict :=
  b.foldl (fun acc kv => dictInsert acc kv.1 kv.2) a

/-! ## Byte and string helpers shared by the decoders -/

/-- The 16-bit big-endian signed integer with high byte hi and low byte
lo, as unpacked by struct with format string of a big-endian short. -/
def int16BE (hi lo : Nat) : Int :=
  let v : Nat := (hi % 256) * 256 + lo % 256
  if v < 32768 then (v : Int) else (v : Int) - 65536

/-- Lowercase hex digit for a value below 16. -/
def hexDigit (n : Nat) : Char :=
  if n < 10 then Char.ofNat (48 + n) else Char.ofNat (87 + n)

/-- binascii hexlify of a byte string: two lowercase hex digits per
byte, concatenated. -/
def hexStr (bytes : List Nat) : String :=
  String.mk (bytes.foldr (fun b acc => hexDigit (b / 16 % 16) :: hexDigit (b % 16) :: acc) [])

/-- The repr of a Python bytes object whose contents are plain hex
digits, as produced by formatting the bytes object with a string
conversion: the letter b, a quote, the digits, a quote. -/
def pyBytesRepr (hex : String) : String :=
  "b" ++ String.singleton (Char.ofNat 39) ++ hex ++ String.singleton (Char.ofNat 39)

/-- Decoding a byte string as latin-1: each byte becomes the character
with that code point. -/
def latin1Decode (bytes : List Nat) : String :=
  String.mk (bytes.map (fun b => Char.ofNat (b % 256)))

/-- The whitespace set of the Python str.strip method, restricted to
the latin-1 range: space, tab through carriage return, the four
information separators, next line, and no-break space. -/
def isPySpace (c : Char) : Bool :=
  c.toNat = 32 || (9 ≤ c.toNat && c.toNat ≤ 13) ||
    (28 ≤ c.toNat && c.toNat ≤ 31) || c.toNat = 133 || c.toNat = 160

/-- Python str.strip: drop leading and trailing whitespace. -/
def pystrip (s : String) : String :=
  String.mk (((s.data.dropWhile isPySpace).reverse.dropWhile isPySpace).reverse)

/-- Python string slicing from the start: the first n characters. -/
def pyTake (s : String) (n : Nat) : String :=
  String.mk (s.data.take n)

/-! ## HID protocol decoder: field decode and firmware dispatch -/

/-- Embeds USBRead._parse_bytes (src/temper.py lines 117-137). The
Python body is two try blocks: the first returns early when the two
bytes at the offset are the sentinel 0x4e 0x20, the second stores the
unpacked big-endian signed 16-bit value divided by the divisor; any
IndexError, struct.error or ZeroDivisionError is swallowed and leaves
the dict unchanged, so the function is total and never raises past the
decoder. Both the sentinel test and the unpack need offset+2 bytes. -/
def parseBytes (name : String) (offset : Nat) (divisor : ℚ)
    (bytes : List Nat) (info : Dict) : Dict :=
  if offset + 2 ≤ bytes.length then
    if bytes.getD offset 0 = 0x4e ∧ bytes.getD (offset + 1) 0 = 0x20 then info
    else if divisor = 0 then info
    else dictInsert info name
      (.num ((int16BE (bytes.getD offset 0) (bytes.getD (offset + 1) 0) : ℚ) / divisor))
  else info

/-- The value a field decode stores, when it stores one: none when the
buffer is too short for the offset or the bytes at the offset are the
no-sensor sentinel, otherwise the signed big-endian 16-bit value at the
offset divided by the divisor. -/
def decodedField (bytes : List Nat) (offset : Nat) (divisor : ℚ) : Option ℚ :=
  if offset + 2 ≤ bytes.length ∧
      ¬(bytes.getD offset 0 = 0x4e ∧ bytes.getD (offset + 1) 0 = 0x20) then
    some ((int16BE (bytes.getD offset 0) (bytes.getD (offset + 1) 0) : ℚ) / divisor)
  else none

/-- Embeds the tail of USBRead._read_hidraw (src/temper.py lines
198-223): build the info dict with the stripped firmware string and the
hex dumps, then dispatch on the firmware prefix, calling parseBytes
with the offsets and divisors of the recognized family, or recording
the unknown-firmware error string. The error string interpolates the
hexlify result, a bytes object, through a string conversion, which
renders it with the bytes-literal quoting. -/
def readHidrawDecode (firmware : List Nat) (bytes : List Nat) : Dict :=
  let fw := pystrip (latin1Decode firmware)
  let info : Dict := [("firmware", .str fw), ("hex_firmware", .str (hexStr firmware)),
    ("hex_data", .str (hexStr bytes))]
  if pyTake fw 10 = "TEMPerF1.4" then
    parseBytes "internal temperature" 2 256 bytes
      (dictInsert info "firmware" (.str (pyTake fw 10)))
  else if pyTake fw 14 = "TEMPerGold_V3." then
    parseBytes "internal temperature" 2 100 bytes
      (dictInsert info "firmware" (.str (pyTake fw 15)))
  else if pyTake fw 12 = "TEMPerX_V3.1" ∨ pyTake fw 12 = "TEMPerX_V3.3" then
    parseBytes "external humidity" 12 100 bytes
      (parseBytes "external temperature" 10 100 bytes
        (parseBytes "internal humidity" 4 100 bytes
          (parseBytes "internal temperature" 2 100 bytes
            (dictInsert info "firmware" (.str (pyTake fw 12))))))
  else
    dictInsert info "error"
      (.str ("Unknown firmware " ++ fw ++ ": " ++ pyBytesRepr (hexStr bytes)))

/-- Embeds USBRead._read_hidraw_firmware (src/temper.py lines 139-170).
The environment is modelled by the byte string each retry attempt
accumulates from the device within its select windows; attempt i of the
Python loop reads attempts i. The loop writes the query, accumulates a
response, raises RuntimeError when nothing at all arrived, stops early
when more than 8 bytes arrived, and otherwise retries; after the tenth
attempt the accumulated (short) buffer of the last attempt is returned
as is. remaining counts the retries still allowed after the current
attempt. -/
def firmwareGo (attempts : Nat → List Nat) (i : Nat) : Nat → Except PyExc (List Nat)
  | 0 =>
    let f := attempts i
    if f.length = 0 then .error .runtimeError
    else .ok f
  | remaining + 1 =>
    let f := attempts i
    if f.length = 0 then .error .runtimeError
    else if f.length > 8 then .ok f
    else firmwareGo attempts (i + 1) remaining

/-- The firmware query of USBRead._read_hidraw_firmware: ten attempts,
starting at attempt 0. -/
def readHidrawFirmware (attempts : Nat → List Nat) : Except PyExc (List Nat) :=
  firmwareGo attempts 0 9

/-! ## Serial protocol decoder: a small backtracking regex engine

The serial reply is parsed with two fixed regular expressions, applied
with Python re.search semantics: the leftmost starting position wins,
and within a position the greedy quantifiers try longest first, with
backtracking. The engine below implements exactly the constructs those
two patterns use. -/

/-- One token of the fixed patterns: a literal, a greedy capturing star
over a character class, a greedy non-capturing dot-star (the dot does
not match a newline), or a greedy optional character. -/
inductive RTok where
  | lit : List Char → RTok
  | cls : (Char → Bool) → RTok
  | dotstar : RTok
  | chOpt : Char → RTok

/-- Backtracking matcher: given the remaining tokens and the remaining
input, return the captured groups of the highest-priority match of the
token list against a prefix of the input (the rest of the input is
ignored, as with an unanchored search). Greedy constructs try the
longest consumption first. -/
def matchToks : List RTok → List Char → Option (List (List Char))
  | [], _ => some []
  | .lit l :: ts, s =>
      if s.take l.length = l then matchToks ts (s.drop l.length) else none
  | .cls p :: ts, s =>
      let m := (s.takeWhile p).length
      ((List.range (m + 1)).reverse).findSome?
        (fun n => (matchToks ts (s.drop n)).map (fun caps => s.take n :: caps))
  | .dotstar :: ts, s =>
      let m := (s.takeWhile (fun c => c ≠ Char.ofNat 10)).length
      ((List.range (m + 1)).reverse).findSome? (fun n => matchToks ts (s.drop n))
  | .chOpt c :: ts, s =>
      if s.take 1 = [c] then
        (matchToks ts (s.drop 1)).orElse (fun _ => matchToks ts s)
      else matchToks ts s

/-- re.search: try each starting position from the left and return the
captures of the first position where the pattern matches. -/
def regexSearch (toks : List RTok) (s : List Char) : Option (List (List Char)) :=
  (List.range (s.length + 1)).findSome? (fun i => matchToks toks (s.drop i))

/-- The character class of both capture groups: an ASCII digit or a
dot. -/
def isDigitDot (c : Char) : Bool :=
  c.isDigit || c = '.'

/-- The first serial reply pattern, with literal Temp-Inner, a colon, a
captured digits-and-dots run, anything, a comma, an optional space and
a second captured digits-and-dots run. -/
def patInner : List RTok :=
  [.lit "Temp-Inner:".data, .cls isDigitDot, .dotstar, .lit [','], .chOpt ' ',
    .cls isDigitDot]

/-- The second serial reply pattern: literal Temp-Outer, a colon and a
captured digits-and-dots run. -/
def patOuter : List RTok :=
  [.lit "Temp-Outer:".data, .cls isDigitDot]

/-- Search the reply for the Temp-Inner pattern, returning the two
captured groups. -/
def searchTempInner (s : List Char) : Option (String × String) :=
  match regexSearch patInner s with
  | some [g1, g2] => some (String.mk g1, String.mk g2)
  | _ => none

/-- Search the reply for the Temp-Outer pattern, returning the captured
group. -/
def searchTempOuter (s : List Char) : Option String :=
  match regexSearch patOuter s with
  | some [g] => some (String.mk g)
  | _ => none

/-- The numeric value of a list of ASCII digits read as a decimal
natural number (the empty list reads as 0). -/
def digitsVal (l : List Char) : Nat :=
  l.foldl (fun a c => a * 10 + (c.toNat - 48)) 0

/-- Python float applied to a capture of the digits-and-dots class:
defined exactly on the strings with at least one digit and at most one
dot, giving integer part plus fraction; everything else raises
ValueError, modelled as none. Signs, exponents and infinities cannot
occur in these captures. -/
def pyFloat (s : String) : Option ℚ :=
  if s.data.all isDigitDot ∧ s.data.any Char.isDigit ∧ s.data.count '.' ≤ 1 then
    some (let ip := s.data.takeWhile (fun c => c ≠ '.')
          let rest := s.data.dropWhile (fun c => c ≠ '.')
          (digitsVal ip : ℚ) +
            (match rest with
             | [] => 0
             | _ :: fp => (digitsVal fp : ℚ) / (10 : ℚ) ^ fp.length))
  else none

/-- Embeds the parsing tail of USBRead._read_serial (src/temper.py
lines 254-266): the info dict starts with the firmware id; a Temp-Inner
match stores internal temperature and internal humidity, with a float
parse failure raising ValueError out of the decoder (those two float
calls are not guarded); a Temp-Outer match stores external temperature,
with a float parse failure silently ignored (that call sits in a try
block). The reply is the concatenation of the two stripped reply
lines. -/
def readSerialParse (firmware : String) (reply : String) : Except PyExc Dict :=
  let info : Dict := [("firmware", .str firmware)]
  let afterInner : Except PyExc Dict :=
    match searchTempInner reply.data with
    | none => .ok info
    | some (g1, g2) =>
      match pyFloat g1 with
      | none => .error .valueError
      | some t =>
        match pyFloat g2 with
        | none => .error .valueError
        | some h =>
          .ok (dictInsert (dictInsert info "internal temperature" (.num t))
            "internal humidity" (.num h))
  match afterInner with
  | .error e => .error e
  | .ok d =>
    match searchTempOuter reply.data with
    | none => .ok d
    | some g =>
      match pyFloat g with
      | none => .ok d
      | some t => .ok (dictInsert d "external temperature" (.num t))

/-! ## Device registry and acquisition orchestrator -/

/-- A registry entry as built by USBList._get_usb_device: the identity
attributes in the order the Python dict acquires its keys, plus the
error key that Temper.read can later set in place on the same dict
(none when the scanner has just built the entry). -/
structure Dev where
  vendorid : Nat
  productid : Nat
  manufacturer : String
  product : String
  busnum : Nat
  devnum : Nat
  devices : List String
  error : Option String := none

deriving DecidableEq

/-- The dict view of a registry entry, with keys in the insertion order
of _get_usb_device and the error key, when present, appended last
(it is always assigned after the scanner built the dict). -/
def devToDict (d : Dev) : Dict :=
  [("vendorid", .int d.vendorid), ("productid", .int d.productid),
    ("manufacturer", .str d.manufacturer), ("product", .str d.product),
    ("busnum", .int d.busnum), ("devnum", .int d.devnum),
    ("devices", .strList d.devices)] ++
    (match d.error with
     | some e => [("error", .str e)]
     | none => [])

/-- Setting the no-interfaces error on a registry entry in place, as
the assignment in Temper.read does. -/
def devSetErr (d : Dev) : Dev :=
  { d with error := some "no hid/tty devices available" }

/-- Embeds Temper._is_known_id (src/temper.py lines 294-314): with a
forced pair the set is exactly that pair, otherwise the four built-in
vendor and product id pairs. -/
def isKnownId (forced : Option (Nat × Nat)) (vendorid productid : Nat) : Bool :=
  match forced with
  | some (fv, fp) => fv = vendorid && fp = productid
  | none =>
    (vendorid = 0x0c45 && productid = 0x7401) ||
    (vendorid = 0x413d && productid = 0x2107) ||
    (vendorid = 0x1a86 && productid = 0x5523) ||
    (vendorid = 0x1a86 && productid = 0xe025)

/-- Embeds USBRead.read (src/temper.py lines 268-277): dispatch on the
device leaf name, to the hidraw decoder, the serial decoder, or the
no-usable-device error dict. The two decoders are passed in as
functions from the leaf name to the dict they return, abstracting the
device I/O. -/
def usbReadDispatch (hid serial : String → Dict) (device : String) : Dict :=
  if device.startsWith "hidraw" then hid device
  else if device.startsWith "tty" then serial device
  else [("error", .str "No usable hid/tty devices available")]

/-- The sort key of Temper.read and Temper.list: busnum * 1000 +
devnum. -/
def devKey (pd : String × Dev) : Nat :=
  pd.2.busnum * 1000 + pd.2.devnum

/-- Stable insertion: place x after every element with a strictly
smaller key and before the first element with an equal or larger key,
so that elements with equal keys keep their original order. -/
def insByKey (x : String × Dev) : List (String × Dev) → List (String × Dev)
  | [] => [x]
  | y :: ys => if devKey y < devKey x then y :: insByKey x ys else x :: y :: ys

/-- The stable sort by (busnum * 1000 + devnum) that Python sorted
performs on the registry items. -/
def sortDevs : List (String × Dev) → List (String × Dev)
  | [] => []
  | x :: xs => insByKey x (sortDevs xs)

/-- Assigning the no-interfaces error into the registry dict stored
under a path, as the in-place mutation in Temper.read does to the
shared dict object. -/
def updatePath (st : List (String × Dev)) (p : String) : List (String × Dev) :=
  st.map (fun qe => if qe.1 = p then (qe.1, devSetErr qe.2) else qe)

/-- The loop of Temper.read (src/temper.py lines 344-356) over the
already sorted items, threading the registry state: unknown ids are
skipped; a known entry with no candidate interfaces gets its error key
assigned in place (mutating the registry dict) and is appended to the
results; any other known entry is read through USBRead on the last
element of its sorted device list and merged over the identity dict,
with the decoder dict winning collisions. -/
def temperGo (hid serial : String → Dict) (isKnown : Nat → Nat → Bool) :
    List (String × Dev) → List (String × Dev) → List Dict × List (String × Dev)
  | [], st => ([], st)
  | (p, d) :: rest, st =>
    if isKnown d.vendorid d.productid then
      if d.devices = [] then
        let out := temperGo hid serial isKnown rest (updatePath st p)
        (devToDict (devSetErr d) :: out.1, out.2)
      else
        let out := temperGo hid serial isKnown rest st
        (mergeDicts (devToDict d)
          (usbReadDispatch hid serial (d.devices.getLastD "")) :: out.1, out.2)
    else temperGo hid serial isKnown rest st

/-- Embeds Temper.read (src/temper.py lines 337-356): sort the registry
items by bus and device number, then run the acquisition loop. Returns
the result list and the registry as it stands after the loop (the loop
mutates entries in place). -/
def temperRead (hid serial : String → Dict) (isKnown : Nat → Nat → Bool)
    (reg : List (String × Dev)) : List Dict × List (String × Dev) :=
  temperGo hid serial isKnown (sortDevs reg) reg

/-! ## Device topology scanner -/

/-- A directory tree as seen through os.scandir: each entry has a name,
the is_dir flag, the is_symlink flag, and its own entries (meaningful
only when it is a directory). -/
inductive DirTree where
  | mk : List (String × Bool × Bool × DirTree) → DirTree

/-- Does the pattern list occur at the head of the input? -/
def startsWithChars : List Char → List Char → Bool
  | [], _ => true
  | _ :: _, [] => false
  | p :: ps, c :: cs => p == c && startsWithChars ps cs

/-- Embeds the first re.search of USBList._find_devices: the name
contains the letters t t y followed, after any run of non-newline
characters, by an ASCII digit (the regex dot does not cross a
newline; a later occurrence of t t y may still match). -/
def matchTty : List Char → Bool
  | [] => false
  | c :: rest =>
    (startsWithChars "tty".data (c :: rest) &&
      ((rest.drop 2).takeWhile (fun ch => ch ≠ Char.ofNat 10)).any Char.isDigit) ||
    matchTty rest

/-- Embeds the second re.search of USBList._find_devices: the name
contains the letters h i d r a w immediately followed by an ASCII
digit. -/
def matchHidraw : List Char → Bool
  | [] => false
  | c :: rest =>
    (startsWithChars "hidraw".data (c :: rest) &&
      (match (c :: rest).drop 6 with
       | d :: _ => d.isDigit
       | [] => false)) ||
    matchHidraw rest

mutual

/-- Embeds USBList._find_devices (src/temper.py lines 59-72): walk the
entries of a directory, recursing into subdirectories that are not
symlinks, and collect every entry name (directory or not, at any
depth) that matches one of the two patterns. The Python set union is
modelled by list concatenation; deduplication happens at the sorted-set
step. -/
def findDevices : DirTree → List String
  | .mk es => findDevicesEntries es

/-- The per-entry loop of USBList._find_devices. -/
def findDevicesEntries : List (String × Bool × Bool × DirTree) → List String
  | [] => []
  | (n, isDir, isSym, sub) :: rest =>
    (if isDir && !isSym then findDevices sub else []) ++
      ((if matchTty n.data then [n] else []) ++
        (if matchHidraw n.data then [n] else [])) ++
      findDevicesEntries rest

end

mutual

/-- All entry names in the subtree that the scan visits: every entry
name at any depth, descending only into non-symlink directories. -/
def subtreeNames : DirTree → List String
  | .mk es => subtreeNamesEntries es

/-- The per-entry collection of subtreeNames. -/
def subtreeNamesEntries : List (String × Bool × Bool × DirTree) → List String
  | [] => []
  | (n, isDir, isSym, sub) :: rest =>
    n :: ((if isDir && !isSym then subtreeNames sub else []) ++
      subtreeNamesEntries rest)

end

/-- Insert a string into a sorted list, keeping it sorted. -/
def insStr (x : String) : List String → List String
  | [] => [x]
  | y :: ys => if x ≤ y then x :: y :: ys else y :: insStr x ys

/-- Insertion sort on strings, the order Python sorted uses on a set of
strings. -/
def sortStrs : List String → List String
  | [] => []
  | x :: xs => insStr x (sortStrs xs)

/-- The candidate interface list the scanner records: Python sorted of
the set returned by _find_devices, that is the deduplicated names in
ascending string order (src/temper.py line 92). -/
def candidates (t : DirTree) : List String :=
  sortStrs (findDevices t).dedup

/-! ## Reading sysfs attributes -/

/-- Embeds USBList._readfile (src/temper.py lines 49-57) over a
filesystem modelled as a partial map from path to contents (none for a
missing, unreadable or erroring file): the contents stripped of
whitespace, or the empty string when the open or read fails. -/
def readFile (fs : String → Option String) (path : String) : String :=
  match fs path with
  | some s => pystrip s
  | none => ""

/-- Is the character an ASCII hex digit? -/
def isHexDigitChar (c : Char) : Bool :=
  c.isDigit || (97 ≤ c.toNat && c.toNat ≤ 102) || (65 ≤ c.toNat && c.toNat ≤ 70)

/-- The value of an ASCII hex digit. -/
def hexVal (c : Char) : Nat :=
  if c.isDigit then c.toNat - 48
  else if 97 ≤ c.toNat then c.toNat - 87
  else c.toNat - 55

/-- Python int with base 16 on the strings a sysfs id file can hold
after stripping: defined on non-empty all-hex-digit strings, raising
ValueError (none) otherwise, in particular on the empty string that
_readfile returns for an unreadable file. Sign, underscore and prefixed
forms do not occur in sysfs id files and are not modelled. -/
def parseHex (s : String) : Option Nat :=
  if s.data ≠ [] ∧ s.data.all isHexDigitChar then
    some (s.data.foldl (fun a c => a * 16 + hexVal c) 0)
  else none

/-- Python int with base 10 on the strings a sysfs bus or device number
file can hold after stripping: defined on non-empty all-digit strings,
raising ValueError (none) otherwise, in particular on the empty
string. -/
def parseDec (s : String) : Option Nat :=
  if s.data ≠ [] ∧ s.data.all Char.isDigit then
    some (s.data.foldl (fun a c => a * 10 + (c.toNat - 48)) 0)
  else none

/-- Embeds USBList._get_usb_device (src/temper.py lines 74-93) over the
modelled filesystem. An empty idVendor read makes the directory a
non-device (ok none). The idProduct, busnum and devnum reads are passed
unguarded to int, so a failure there raises ValueError out of the whole
scan; the manufacturer and product reads are stored as strings, so a
failure there just stores the empty string. The candidate interface
list is supplied by the directory walk. -/
def getUsbDevice (fs : String → Option String) (cands : List String)
    (dirname : String) : Except PyExc (Option Dev) :=
  let vendorid := readFile fs (dirname ++ "/idVendor")
  if vendorid = "" then .ok none
  else
    match parseHex vendorid with
    | none => .error .valueError
    | some v =>
      match parseHex (readFile fs (dirname ++ "/idProduct")) with
      | none => .error .valueError
      | some p =>
        match parseDec (readFile fs (dirname ++ "/busnum")) with
        | none => .error .valueError
        | some bn =>
          match parseDec (readFile fs (dirname ++ "/devnum")) with
          | none => .error .valueError
          | some dn =>
            .ok (some
              { vendorid := v, productid := p,
                manufacturer := readFile fs (dirname ++ "/manufacturer"),
                product := readFile fs (dirname ++ "/product"),
                busnum := bn, devnum := dn, devices := cands, error := none })

/-! ## The web service request handlers -/

/-- The attribute names the class body of Temper defines
(src/temper.py lines 280-603): its methods, in source order. -/
def temperClassAttrs : List String :=
  ["SYSPATH", "__init__", "reset", "_is_known_id", "list", "read",
    "_add_temperature", "_add_humidity", "print", "maybe_reset", "webserver",
    "main"]

/-- The instance attribute names any code path of temper.py assigns on
a Temper object. -/
def temperInstanceAttrs : List String :=
  ["forced_vendor_id", "forced_product_id", "verbose", "usb_devices",
    "last_reset", "lock"]

/-- Python attribute lookup on a Temper object: found when the name is
an instance attribute or a class attribute, AttributeError otherwise. -/
def temperHasAttr (name : String) : Bool :=
  temperInstanceAttrs.contains name || temperClassAttrs.contains name

/-- Embeds RequestHandler.filter (src/temper.py lines 516-523): copy
the whitelisted keys that are present, and assign the synthesized url
(the assignment sits inside the loop, so it runs once per whitelisted
key; the net dict is the same). The url interpolates the decimal
vendor and product ids of the info dict, which every registry-derived
dict carries as ints. -/
def filterInfo (protocol hostname : String) (port : Nat) (info : Dict) : Dict :=
  let getId : String → Int := fun k =>
    match dictLookup info k with
    | some (.int n) => n
    | _ => 0
  let url := protocol ++ "://" ++ hostname ++ ":" ++ toString port ++ "/" ++
    toString (getId "vendorid") ++ "/" ++ toString (getId "productid")
  ["vendorid", "productid", "manufacturer", "product", "internal temperature",
    "internal humidity", "external temperature", "external humidity"].foldl
    (fun acc k =>
      dictInsert
        (match dictLookup info k with
         | some v => dictInsert acc k v
         | none => acc) "url" (.str url)) []

/-- Embeds RequestHandler.get_all (src/temper.py lines 483-496) after
the maybe_reset call, for a GET or HEAD request. The outcome of the
first Temper.read call is an argument (ok with its result list, or the
exception it raised). A FileNotFoundError leaves results unset; the
handler then looks up the attribute force_reset on the Temper object,
which the class does not define, before it could rescan and run the
retry read (whose outcome is the last argument). Any other exception
of the first read propagates. -/
def getAll (protocol hostname : String) (port : Nat) (mode : String)
    (firstRead : Except PyExc (List Dict)) (retryRead : Except PyExc (List Dict)) :
    Except PyExc (Nat × List Dict) :=
  if mode = "HEAD" then .ok (200, [])
  else
    match firstRead with
    | .ok rs => .ok (200, rs.map (filterInfo protocol hostname port))
    | .error .fileNotFound =>
      if temperHasAttr "force_reset" then
        match retryRead with
        | .ok rs => .ok (200, rs.map (filterInfo protocol hostname port))
        | .error e => .error e
      else .error .attributeError
    | .error e => .error e

/-- Embeds the device-matching loop of RequestHandler.get_device
(src/temper.py lines 498-514) over the registry snapshot: the first
entry with a known id and both ids equal to the request is answered;
a HEAD request returns before any device access; a GET request indexes
the last element of the device list, which raises IndexError on an
empty list (the try block around the loop catches only
FileNotFoundError), then reads and filters; no match falls through to
the 404 body. -/
def getDevice (isKnown : Nat → Nat → Bool) (hid serial : String → Dict)
    (protocol hostname : String) (port : Nat) :
    List (String × Dev) → String → Nat → Nat → Except PyExc (Nat × Dict)
  | [], _, _, _ => .ok (404, [("error", .str "no such device")])
  | (_, d) :: rest, mode, vendorid, productid =>
    if isKnown d.vendorid d.productid then
      if vendorid = d.vendorid ∧ productid = d.productid then
        if mode = "HEAD" then .ok (200, [])
        else
          match d.devices.getLast? with
          | none => .error .indexError
          | some dev =>
            .ok (200, filterInfo protocol hostname port
              (mergeDicts (devToDict d) (usbReadDispatch hid serial dev)))
      else getDevice isKnown hid serial protocol hostname port rest mode vendorid productid
    else getDevice isKnown hid serial protocol hostname port rest mode vendorid productid

/-- The per-item registry update of the acquisition loop. -/
def regStep (isKnown : Nat → Nat → Bool) (st : List (String × Dev))
    (pd : String × Dev) : List (String × Dev) :=
  if isKnown pd.2.vendorid pd.2.productid ∧ pd.2.devices = [] then updatePath st pd.1
  else st

/-- Does processing the registry item pd mutate the registry dict with
the given path: same path, known id, empty device list. -/
def touches (isKnown : Nat → Nat → Bool) (q : String) (pd : String × Dev) : Bool :=
  pd.1 == q && isKnown pd.2.vendorid pd.2.productid && pd.2.devices.isEmpty

/-! ## Concrete fixtures for witnesses and counterexamples -/

/-- A trivial HID decoder stub used by concrete instances. -/
def hidStub : String → Dict := fun _ => [("firmware", .str "TEMPerF1.4")]

/-- A trivial serial decoder stub used by concrete instances. -/
def serialStub : String → Dict := fun _ => [("firmware", .str "TEMPER2V1.3")]

/-- A registry entry with a known id and no candidate interfaces. -/
def devC6 : Dev :=
  { vendorid := 0x0c45, productid := 0x7401, manufacturer := "", product := "TEMPer",
    busnum := 1, devnum := 2, devices := [], error := none }

/-- A one-entry registry holding devC6. -/
def regC6 : List (String × Dev) := [("/sys/bus/usb/devices/1-1", devC6)]

/-- A directory with a single entry named ttyUSB0. -/
def treeTtyUsb : DirTree := .mk [("ttyUSB0", false, false, .mk [])]

/-- Modelled from the claim wording of C7, for comparison with the
code: a name of the shape tty followed by one or more digits, or
hidraw followed by one or more digits. -/
def specClaimShape (s : String) : Bool :=
  (startsWithChars "tty".data s.data && !(s.data.drop 3).isEmpty &&
    (s.data.drop 3).all Char.isDigit) ||
  (startsWithChars "hidraw".data s.data && !(s.data.drop 6).isEmpty &&
    (s.data.drop 6).all Char.isDigit)

/-- A filesystem where only the idVendor attribute of the device
directory is readable. -/
def fsC8 : String → Option String := fun p =>
  if p = "/sys/bus/usb/devices/1-1/idVendor" then some "0c45" else none

/-- A filesystem with every attribute of the device directory readable
except manufacturer. -/
def fsC8W : String → Option String := fun p =>
  if p = "/d/idVendor" then some "0c45"
  else if p = "/d/idProduct" then some "7401"
  else if p = "/d/busnum" then some "1"
  else if p = "/d/devnum" then some "2"
  else if p = "/d/product" then some "TEMPer"
  else none

/-! ## Lemmas about the dict operations -/

theorem dictLookup_insert (d : Dict) (k q : String) (v : PyVal) :
    dictLookup (dictInsert d k v) q = if q = k then some v else dictLookup d q := by
  induction d with
  | nil =>
    by_cases hq : q = k <;> simp [dictInsert, dictLookup, hq]
  | cons hd tl ih =>
    obtain ⟨k0, v0⟩ := hd
    by_cases h : k = k0
    · subst h
      by_cases hq : q = k <;> simp [dictInsert, dictLookup, hq]
    · by_cases hq : q = k0
      · subst hq
        have hqk : ¬ q = k := fun hc => h hc.symm
        simp [dictInsert, dictLookup, h, hqk]
      · simp [dictInsert, dictLookup, h, hq, ih]

theorem dictLookup_eq_none_of_not_mem_keys (d : Dict) (q : String)
    (h : q ∉ d.map Prod.fst) : dictLookup d q = none := by
  induction d with
  | nil => simp [dictLookup]
  | cons hd tl ih =>
    obtain ⟨k0, v0⟩ := hd
    simp only [List.map_cons, List.mem_cons] at h
    push_neg at h
    simp [dictLookup, h.1, ih h.2]

theorem dictLookup_merge_of_lookup_none (a b : Dict) (q : String)
    (h : dictLookup b q = none) :
    dictLookup (mergeDicts a b) q = dictLookup a q := by
  induction b generalizing a with
  | nil => simp [mergeDicts]
  | cons hd tl ih =>
    obtain ⟨k0, v0⟩ := hd
    simp only [dictLookup] at h
    by_cases hq : q = k0
    · simp [hq] at h
    · simp only [if_neg hq] at h
      have : mergeDicts a ((k0, v0) :: tl) = mergeDicts (dictInsert a k0 v0) tl := rfl
      rw [this, ih _ h, dictLookup_insert, if_neg hq]

/-- On key collision the second dict wins: looking up a key bound in b
after merging a with b returns the binding of b. -/
theorem dictLookup_merge (a b : Dict) (q : String)
    (hb : (b.map Prod.fst).Nodup) (h : dictLookup b q ≠ none) :
    dictLookup (mergeDicts a b) q = dictLookup b q := by
  induction b generalizing a with
  | nil => simp [dictLookup] at h
  | cons hd tl ih =>
    obtain ⟨k0, v0⟩ := hd
    have hmerge : mergeDicts a ((k0, v0) :: tl) = mergeDicts (dictInsert a k0 v0) tl := rfl
    simp only [List.map_cons, List.nodup_cons] at hb
    by_cases hq : q = k0
    · subst hq
      have hnone : dictLookup tl q = none :=
        dictLookup_eq_none_of_not_mem_keys tl q hb.1
      rw [hmerge, dictLookup_merge_of_lookup_none _ _ _ hnone, dictLookup_insert]
      simp [dictLookup]
    · simp only [dictLookup, if_neg hq] at h ⊢
      rw [hmerge, ih _ hb.2 h]

theorem parseBytes_lookup_other (name : String) (offset : Nat) (divisor : ℚ)
    (bytes : List Nat) (info : Dict) (k : String) (hk : k ≠ name) :
    dictLookup (parseBytes name offset divisor bytes info) k = dictLookup info k := by
  unfold parseBytes
  split
  · split
    · rfl
    · split
      · rfl
      · rw [dictLookup_insert, if_neg hk]
  · rfl

theorem parseBytes_eq_of_decoded_none (name : String) (offset : Nat) (divisor : ℚ)
    (bytes : List Nat) (info : Dict) (h : decodedField bytes offset divisor = none) :
    parseBytes name offset divisor bytes info = info := by
  unfold decodedField at h
  split at h
  · exact absurd h (by simp)
  · rename_i hc
    push_neg at hc
    unfold parseBytes
    split
    · rename_i hlen
      split
      · rfl
      · rename_i hsent
        exact absurd (hc hlen) hsent
    · rfl

theorem parseBytes_eq_of_decoded_some (name : String) (offset : Nat) (divisor : ℚ)
    (bytes : List Nat) (info : Dict) (q : ℚ) (hd : divisor ≠ 0)
    (h : decodedField bytes offset divisor = some q) :
    parseBytes name offset divisor bytes info = dictInsert info name (.num q) := by
  unfold decodedField at h
  split at h
  · rename_i hc
    rw [Option.some_inj] at h
    unfold parseBytes
    rw [if_pos hc.1, if_neg hc.2, if_neg hd, h]
  · exact absurd h (by simp)

theorem parseBytes_lookup_self (name : String) (offset : Nat) (divisor : ℚ)
    (bytes : List Nat) (info : Dict) (hd : divisor ≠ 0) :
    dictLookup (parseBytes name offset divisor bytes info) name =
      match decodedField bytes offset divisor with
      | some q => some (.num q)
      | none => dictLookup info name := by
  cases h : decodedField bytes offset divisor with
  | none => rw [parseBytes_eq_of_decoded_none _ _ _ _ _ h]
  | some q =>
    rw [parseBytes_eq_of_decoded_some _ _ _ _ _ _ hd h, dictLookup_insert, if_pos rfl]

/-! ## Lemmas about the acquisition orchestrator -/

theorem insByKey_perm (x : String × Dev) (l : List (String × Dev)) :
    List.Perm (insByKey x l) (x :: l) := by
  induction l with
  | nil => rfl
  | cons y ys ih =>
    unfold insByKey
    split
    · exact ((ih.cons y).trans (List.Perm.swap x y ys))
    · rfl

theorem sortDevs_perm (l : List (String × Dev)) : List.Perm (sortDevs l) l := by
  induction l with
  | nil => rfl
  | cons x xs ih => exact (insByKey_perm x (sortDevs xs)).trans (ih.cons x)

theorem pairwise_insByKey (x : String × Dev) (l : List (String × Dev))
    (h : l.Pairwise (fun a b => devKey a ≤ devKey b)) :
    (insByKey x l).Pairwise (fun a b => devKey a ≤ devKey b) := by
  induction l with
  | nil => simp [insByKey]
  | cons y ys ih =>
    unfold insByKey
    rw [List.pairwise_cons] at h
    split
    · rename_i hlt
      refine List.Pairwise.cons ?_ (ih h.2)
      intro a ha
      rcases List.mem_cons.mp ((insByKey_perm x ys).mem_iff.mp ha) with rfl | hmem
      · exact Nat.le_of_lt hlt
      · exact h.1 a hmem
    · rename_i hge
      push_neg at hge
      refine List.Pairwise.cons ?_ (List.Pairwise.cons h.1 h.2)
      intro a ha
      rcases List.mem_cons.mp ha with rfl | hmem
      · exact hge
      · exact le_trans hge (h.1 a hmem)

theorem sortDevs_pairwise (l : List (String × Dev)) :
    (sortDevs l).Pairwise (fun a b => devKey a ≤ devKey b) := by
  induction l with
  | nil => simp [sortDevs]
  | cons x xs ih => exact pairwise_insByKey x (sortDevs xs) ih

theorem temperGo_fst (hid serial : String → Dict) (isKnown : Nat → Nat → Bool)
    (l st : List (String × Dev)) :
    (temperGo hid serial isKnown l st).1 =
      (l.filter (fun pd => isKnown pd.2.vendorid pd.2.productid)).map
        (fun pd =>
          if pd.2.devices = [] then devToDict (devSetErr pd.2)
          else mergeDicts (devToDict pd.2)
            (usbReadDispatch hid serial (pd.2.devices.getLastD ""))) := by
  induction l generalizing st with
  | nil => rfl
  | cons pd rest ih =>
    obtain ⟨p, d⟩ := pd
    by_cases hk : isKnown d.vendorid d.productid
    · by_cases hdev : d.devices = []
      · simp [temperGo, hk, hdev, List.filter_cons, ih]
      · simp [temperGo, hk, hdev, List.filter_cons, ih]
    · simp [temperGo, hk, List.filter_cons, ih]

theorem temperGo_snd (hid serial : String → Dict) (isKnown : Nat → Nat → Bool)
    (l st : List (String × Dev)) :
    (temperGo hid serial isKnown l st).2 = l.foldl (regStep isKnown) st := by
  induction l generalizing st with
  | nil => rfl
  | cons pd rest ih =>
    obtain ⟨p, d⟩ := pd
    by_cases hk : isKnown d.vendorid d.productid
    · by_cases hdev : d.devices = []
      · simp [temperGo, hk, hdev, regStep, List.foldl_cons, ih]
      · simp [temperGo, hk, hdev, regStep, List.foldl_cons, ih]
    · simp [temperGo, hk, regStep, List.foldl_cons, ih]

theorem devSetErr_idem (d : Dev) : devSetErr (devSetErr d) = devSetErr d := rfl

theorem foldl_regStep (isKnown : Nat → Nat → Bool) (l st : List (String × Dev)) :
    l.foldl (regStep isKnown) st =
      st.map (fun qe =>
        if l.any (touches isKnown qe.1) then (qe.1, devSetErr qe.2) else qe) := by
  induction l generalizing st with
  | nil => simp
  | cons pd rest ih =>
    obtain ⟨p, d⟩ := pd
    rw [List.foldl_cons, ih]
    by_cases hc : isKnown d.vendorid d.productid = true ∧ d.devices = []
    · have hdev : d.devices.isEmpty = true := by
        rw [hc.2]
        rfl
      have hstep : regStep isKnown st (p, d) = updatePath st p := by
        simp [regStep, hc.1, hc.2]
      rw [hstep]
      unfold updatePath
      rw [List.map_map]
      apply List.map_congr_left
      intro qe _
      simp only [Function.comp, List.any_cons]
      by_cases hq : qe.1 = p
      · have htouch : touches isKnown qe.1 (p, d) = true := by
          simp [touches, hq, hc.1, hdev]
        have hcond : (touches isKnown qe.1 (p, d) || rest.any (touches isKnown qe.1)) = true := by
          rw [htouch]
          rfl
        rw [if_pos hq, if_pos hcond]
        simp only [devSetErr_idem]
        rw [ite_self]
      · have hpq : (p == qe.1) = false := by
          simp only [beq_eq_false_iff_ne, ne_eq]
          exact fun h => hq h.symm
        have htouch : touches isKnown qe.1 (p, d) = false := by
          simp [touches, hpq]
        have hcond : (touches isKnown qe.1 (p, d) || rest.any (touches isKnown qe.1)) =
            rest.any (touches isKnown qe.1) := by
          rw [htouch, Bool.false_or]
        rw [if_neg hq]
        by_cases hrest : rest.any (touches isKnown qe.1) = true
        · rw [if_pos hrest, if_pos (hcond.trans hrest)]
        · rw [if_neg hrest, if_neg (fun hcc => hrest (hcond.symm.trans hcc))]
    · have hstep : regStep isKnown st (p, d) = st := by
        simp only [regStep, if_neg hc]
      rw [hstep]
      apply List.map_congr_left
      intro qe _
      simp only [List.any_cons]
      have htouch : touches isKnown qe.1 (p, d) = false := by
        rcases not_and_or.mp hc with h | h
        · cases hb : isKnown d.vendorid d.productid
          · simp [touches, hb]
          · exact absurd hb h
        · cases hd : d.devices with
          | nil => exact absurd hd h
          | cons a l => simp [touches, hd]
      have hcond : (touches isKnown qe.1 (p, d) || rest.any (touches isKnown qe.1)) =
          rest.any (touches isKnown qe.1) := by
        rw [htouch, Bool.false_or]
      by_cases hrest : rest.any (touches isKnown qe.1) = true
      · rw [if_pos hrest, if_pos (hcond.trans hrest)]
      · rw [if_neg hrest, if_neg (fun hcc => hrest (hcond.symm.trans hcc))]

theorem bool_or_iff (a b : Bool) : (a || b) = true ↔ a = true ∨ b = true := by
  cases a <;> simp

theorem keys_nodup_inj (reg : List (String × Dev)) (h : (reg.map Prod.fst).Nodup)
    (pd qe : String × Dev) (hpd : pd ∈ reg) (hqe : qe ∈ reg) (heq : pd.1 = qe.1) :
    pd = qe := by
  induction reg with
  | nil => exact absurd hpd (List.not_mem_nil pd)
  | cons hd tl ih =>
    simp only [List.map_cons, List.nodup_cons] at h
    rcases List.mem_cons.mp hpd with rfl | hpd'
    · rcases List.mem_cons.mp hqe with rfl | hqe'
      · rfl
      · exact absurd (heq ▸ List.mem_map_of_mem Prod.fst hqe') h.1
    · rcases List.mem_cons.mp hqe with rfl | hqe'
      · exact absurd (heq ▸ List.mem_map_of_mem Prod.fst hpd') h.1
      · exact ih h.2 hpd' hqe'

theorem temperRead_snd_char (hid serial : String → Dict) (isKnown : Nat → Nat → Bool)
    (reg : List (String × Dev)) (h : (reg.map Prod.fst).Nodup) :
    (temperRead hid serial isKnown reg).2 =
      reg.map (fun qe =>
        if isKnown qe.2.vendorid qe.2.productid ∧ qe.2.devices = [] then
          (qe.1, devSetErr qe.2)
        else qe) := by
  unfold temperRead
  rw [temperGo_snd, foldl_regStep]
  apply List.map_congr_left
  intro qe hqe
  have hiff : (sortDevs reg).any (touches isKnown qe.1) = true ↔
      (isKnown qe.2.vendorid qe.2.productid = true ∧ qe.2.devices = []) := by
    rw [List.any_eq_true]
    constructor
    · rintro ⟨pd, hmem, htrue⟩
      have hmem' : pd ∈ reg := (sortDevs_perm reg).mem_iff.mp hmem
      have htrue' : (pd.1 = qe.1 ∧ isKnown pd.2.vendorid pd.2.productid = true) ∧
          pd.2.devices = [] := by
        simpa [touches, Bool.and_eq_true, beq_iff_eq] using htrue
      have heq : pd = qe := keys_nodup_inj reg h pd qe hmem' hqe htrue'.1.1
      subst heq
      exact ⟨htrue'.1.2, htrue'.2⟩
    · rintro ⟨hk, hd⟩
      refine ⟨qe, (sortDevs_perm reg).mem_iff.mpr hqe, ?_⟩
      simp [touches, hk, hd]
  by_cases hcond : isKnown qe.2.vendorid qe.2.productid = true ∧ qe.2.devices = []
  · rw [if_pos (hiff.mpr hcond), if_pos hcond]
  · rw [if_neg (fun hcc => hcond (hiff.mp hcc)), if_neg hcond]

/-! ## Lemmas about the topology scanner -/

theorem mem_if_singleton (x n : String) (b : Bool) :
    (x ∈ (if b then [n] else [])) ↔ b = true ∧ x = n := by
  cases b <;> simp

mutual

theorem mem_findDevices (x : String) :
    (t : DirTree) → (x ∈ findDevices t ↔
      x ∈ subtreeNames t ∧ (matchTty x.data || matchHidraw x.data) = true)
  | .mk es => mem_findDevicesEntries x es

theorem mem_findDevicesEntries (x : String) :
    (es : List (String × Bool × Bool × DirTree)) → (x ∈ findDevicesEntries es ↔
      x ∈ subtreeNamesEntries es ∧ (matchTty x.data || matchHidraw x.data) = true)
  | [] => by simp [findDevicesEntries, subtreeNamesEntries]
  | (n, isDir, isSym, sub) :: rest => by
    have h1 := mem_findDevices x sub
    have h2 := mem_findDevicesEntries x rest
    simp only [findDevicesEntries, subtreeNamesEntries, List.mem_append,
      List.mem_cons, mem_if_singleton, bool_or_iff]
    constructor
    · intro hin
      rcases hin with (hsub | (⟨htty, rfl⟩ | ⟨hhid, rfl⟩)) | hrest
      · by_cases hb : (isDir && !isSym) = true
        · rw [if_pos hb] at hsub
          obtain ⟨hmem, hpat⟩ := h1.mp hsub
          refine ⟨Or.inr (Or.inl ?_), (bool_or_iff _ _).mp hpat⟩
          rw [if_pos hb]
          exact hmem
        · rw [if_neg hb] at hsub
          exact absurd hsub (List.not_mem_nil x)
      · exact ⟨Or.inl rfl, Or.inl htty⟩
      · exact ⟨Or.inl rfl, Or.inr hhid⟩
      · obtain ⟨hmem, hpat⟩ := h2.mp hrest
        exact ⟨Or.inr (Or.inr hmem), (bool_or_iff _ _).mp hpat⟩
    · rintro ⟨rfl | hmem, hpat⟩
      · rcases hpat with htty | hhid
        · exact Or.inl (Or.inr (Or.inl ⟨htty, rfl⟩))
        · exact Or.inl (Or.inr (Or.inr ⟨hhid, rfl⟩))
      · rcases hmem with hsub | hrest
        · by_cases hb : (isDir && !isSym) = true
          · rw [if_pos hb] at hsub
            refine Or.inl (Or.inl ?_)
            rw [if_pos hb]
            exact h1.mpr ⟨hsub, (bool_or_iff _ _).mpr hpat⟩
          · rw [if_neg hb] at hsub
            exact absurd hsub (List.not_mem_nil x)
        · exact Or.inr (h2.mpr ⟨hrest, (bool_or_iff _ _).mpr hpat⟩)

end

theorem insStr_perm (x : String) (l : List String) :
    List.Perm (insStr x l) (x :: l) := by
  induction l with
  | nil => rfl
  | cons y ys ih =>
    unfold insStr
    split
    · rfl
    · exact ((ih.cons y).trans (List.Perm.swap x y ys))

theorem sortStrs_perm (l : List String) : List.Perm (sortStrs l) l := by
  induction l with
  | nil => rfl
  | cons x xs ih => exact (insStr_perm x (sortStrs xs)).trans (ih.cons x)

theorem pairwise_insStr (x : String) (l : List String)
    (h : l.Pairwise (fun a b => a ≤ b)) :
    (insStr x l).Pairwise (fun a b => a ≤ b) := by
  induction l with
  | nil => simp [insStr]
  | cons y ys ih =>
    unfold insStr
    rw [List.pairwise_cons] at h
    split
    · rename_i hle
      refine List.Pairwise.cons ?_ (List.Pairwise.cons h.1 h.2)
      intro a ha
      rcases List.mem_cons.mp ha with rfl | hmem
      · exact hle
      · exact le_trans hle (h.1 a hmem)
    · rename_i hgt
      push_neg at hgt
      refine List.Pairwise.cons ?_ (ih h.2)
      intro a ha
      rcases List.mem_cons.mp ((insStr_perm x ys).mem_iff.mp ha) with rfl | hmem
      · exact le_of_lt hgt
      · exact h.1 a hmem

theorem sortStrs_pairwise (l : List String) :
    (sortStrs l).Pairwise (fun a b => a ≤ b) := by
  induction l with
  | nil => simp [sortStrs]
  | cons x xs ih => exact pairwise_insStr x (sortStrs xs) ih

theorem candidates_sorted (t : DirTree) :
    (candidates t).Pairwise (fun a b => a ≤ b) :=
  sortStrs_pairwise _

theorem candidates_nodup (t : DirTree) : (candidates t).Nodup :=
  ((sortStrs_perm _).nodup_iff).mpr (List.nodup_dedup _)

theorem mem_candidates (t : DirTree) (x : String) :
    x ∈ candidates t ↔
      x ∈ subtreeNames t ∧ (matchTty x.data || matchHidraw x.data) = true := by
  unfold candidates
  rw [(sortStrs_perm _).mem_iff, List.mem_dedup]
  exact mem_findDevices x t

/-! ## Lemmas about the firmware retry loop -/

theorem firmwareGo_all_short (attempts : Nat → List Nat) :
    ∀ r i, (∀ k, k ≤ r → 1 ≤ (attempts (i + k)).length ∧ (attempts (i + k)).length ≤ 8) →
      firmwareGo attempts i r = .ok (attempts (i + r)) := by
  intro r
  induction r with
  | zero =>
    intro i h
    have h0 := h 0 (Nat.le_refl 0)
    rw [Nat.add_zero] at h0 ⊢
    simp only [firmwareGo]
    rw [if_neg (by omega)]
  | succ r ih =>
    intro i h
    have h0 := h 0 (Nat.zero_le _)
    rw [Nat.add_zero] at h0
    simp only [firmwareGo]
    rw [if_neg (by omega), if_neg (by omega)]
    have hrec := ih (i + 1) (fun k hk => by
      have hx := h (k + 1) (by omega)
      rwa [show i + (k + 1) = i + 1 + k by omega] at hx)
    rw [hrec, show i + 1 + r = i + (r + 1) by omega]

theorem firmwareGo_zero (attempts : Nat → List Nat) :
    ∀ j r i, j ≤ r →
      (∀ k, k < j → 1 ≤ (attempts (i + k)).length ∧ (attempts (i + k)).length ≤ 8) →
      (attempts (i + j)).length = 0 →
      firmwareGo attempts i r = .error .runtimeError := by
  intro j
  induction j with
  | zero =>
    intro r i _ _ hz
    rw [Nat.add_zero] at hz
    cases r <;> simp only [firmwareGo] <;> rw [if_pos hz]
  | succ j ih =>
    intro r i hjr hpre hz
    obtain ⟨r', rfl⟩ : ∃ r', r = r' + 1 := ⟨r - 1, by omega⟩
    have h0 := hpre 0 (Nat.succ_pos j)
    rw [Nat.add_zero] at h0
    simp only [firmwareGo]
    rw [if_neg (by omega), if_neg (by omega)]
    exact ih r' (i + 1) (by omega)
      (fun k hk => by
        have hx := hpre (k + 1) (by omega)
        rwa [show i + (k + 1) = i + 1 + k by omega] at hx)
      (by rwa [show i + 1 + j = i + (j + 1) by omega])

theorem firmwareGo_accept (attempts : Nat → List Nat) :
    ∀ j r i, j ≤ r →
      (∀ k, k < j → 1 ≤ (attempts (i + k)).length ∧ (attempts (i + k)).length ≤ 8) →
      (attempts (i + j)).length > 8 →
      firmwareGo attempts i r = .ok (attempts (i + j)) := by
  intro j
  induction j with
  | zero =>
    intro r i _ _ hg
    rw [Nat.add_zero] at hg ⊢
    cases r
    · simp only [firmwareGo]
      rw [if_neg (by omega)]
    · simp only [firmwareGo]
      rw [if_neg (by omega), if_pos hg]
  | succ j ih =>
    intro r i hjr hpre hg
    obtain ⟨r', rfl⟩ : ∃ r', r = r' + 1 := ⟨r - 1, by omega⟩
    have h0 := hpre 0 (Nat.succ_pos j)
    rw [Nat.add_zero] at h0
    simp only [firmwareGo]
    rw [if_neg (by omega), if_neg (by omega)]
    have := ih r' (i + 1) (by omega)
      (fun k hk => by
        have hx := hpre (k + 1) (by omega)
        rwa [show i + (k + 1) = i + 1 + k by omega] at hx)
      (by rwa [show i + 1 + j = i + (j + 1) by omega])
    rw [this, show i + 1 + j = i + (j + 1) by omega]

/-! ## The claims -/

/-- C1: the claim says a FileNotFoundError in the first acquisition of
a GET / request triggers a forced rescan and one retry. The code of
get_all instead calls self.force_reset(), an attribute the Temper class
never defines, so the handler raises AttributeError and produces no
response: the retry never happens. This theorem evaluates the embedded
handler at the failing input. -/
theorem c1_get_all_crashes (protocol hostname : String) (port : Nat)
    (retryRead : Except PyExc (List Dict)) :
    temperHasAttr "force_reset" = false ∧
    getAll protocol hostname port "GET" (.error .fileNotFound) retryRead =
      .error .attributeError :=
  ⟨rfl, rfl⟩

/-- C2 counterexample: ten attempts of four bytes each exhaust the
query, yet the reading does not fail; the short buffer of the last
attempt is returned. -/
theorem c2_counterexample :
    readHidrawFirmware (fun _ => [1, 2, 3, 4]) = .ok [1, 2, 3, 4] ∧
    readHidrawFirmware (fun _ => [1, 2, 3, 4]) ≠ .error .runtimeError := by
  decide

/-- C2 (amended): in the HID firmware query, an attempt that receives
zero bytes fails immediately with RuntimeError, an attempt that
accumulates more than 8 bytes is accepted at once, and if all 10
attempts each accumulate between 1 and 8 bytes the loop gives up and
proceeds with the last short firmware buffer, returning it without any
error. -/
theorem c2_firmware_retry (attempts : Nat → List Nat) :
    (∀ j, j < 10 →
      (∀ k, k < j → 1 ≤ (attempts k).length ∧ (attempts k).length ≤ 8) →
      ((attempts j).length = 0 →
        readHidrawFirmware attempts = .error .runtimeError) ∧
      ((attempts j).length > 8 →
        readHidrawFirmware attempts = .ok (attempts j))) ∧
    ((∀ i, i < 10 → 1 ≤ (attempts i).length ∧ (attempts i).length ≤ 8) →
      readHidrawFirmware attempts = .ok (attempts 9)) := by
  constructor
  · intro j hj hpre
    constructor
    · intro hz
      unfold readHidrawFirmware
      exact firmwareGo_zero attempts j 9 0 (by omega)
        (fun k hk => by simpa using hpre k hk) (by simpa using hz)
    · intro hg
      unfold readHidrawFirmware
      have := firmwareGo_accept attempts j 9 0 (by omega)
        (fun k hk => by simpa using hpre k hk) (by simpa using hg)
      simpa using this
  · intro hall
    unfold readHidrawFirmware
    have := firmwareGo_all_short attempts 9 0
      (fun k hk => by simpa using hall k (by omega))
    simpa using this

/-- C2 witness: ten two-byte attempts return the short buffer. -/
theorem c2_witness : readHidrawFirmware (fun _ => [5, 5]) = .ok [5, 5] :=
  (c2_firmware_retry (fun _ => [5, 5])).2 (fun i _ => by decide)

/-- C3: the shared field decode reads a 16-bit big-endian signed
integer at the offset and stores integer divided by divisor under the
given name; the sentinel bytes 0x4e 0x20 omit the field, a buffer too
short for the offset omits the field, no other key of the dict is ever
modified, and (the embedding being a total function) nothing escapes
the decoder. Stated for the nonzero divisors the decoder passes. -/
theorem c3_parse_bytes (name : String) (offset : Nat) (divisor : ℚ)
    (bytes : List Nat) (info : Dict) (hd : divisor ≠ 0) :
    (offset + 2 ≤ bytes.length →
      ¬(bytes.getD offset 0 = 0x4e ∧ bytes.getD (offset + 1) 0 = 0x20) →
      parseBytes name offset divisor bytes info =
        dictInsert info name
          (.num ((int16BE (bytes.getD offset 0) (bytes.getD (offset + 1) 0) : ℚ) /
            divisor))) ∧
    (bytes.getD offset 0 = 0x4e ∧ bytes.getD (offset + 1) 0 = 0x20 →
      parseBytes name offset divisor bytes info = info) ∧
    (bytes.length < offset + 2 → parseBytes name offset divisor bytes info = info) ∧
    (∀ k, k ≠ name →
      dictLookup (parseBytes name offset divisor bytes info) k = dictLookup info k) := by
  refine ⟨?_, ?_, ?_, ?_⟩
  · intro hlen hsent
    unfold parseBytes
    rw [if_pos hlen, if_neg hsent, if_neg hd]
  · intro hsent
    unfold parseBytes
    split <;> rfl
  · intro hlt
    unfold parseBytes
    rw [if_neg (by omega)]
  · exact fun k hk => parseBytes_lookup_other name offset divisor bytes info k hk

/-- C3 witness: decoding bytes 01 00 at offset 2 with divisor 256
stores exactly 1 in an empty dict. -/
theorem c3_witness :
    parseBytes "internal temperature" 2 256 [1, 1, 1, 0] [] =
      [("internal temperature", PyVal.num 1)] := by
  have h := (c3_parse_bytes "internal temperature" 2 256 [1, 1, 1, 0] []
    (by norm_num)).1 (by decide) (by decide)
  have h16 : int16BE ([1, 1, 1, 0].getD 2 0) ([1, 1, 1, 0].getD (2 + 1) 0) = 256 := by
    decide
  rw [h, h16]
  norm_num [dictInsert]

theorem parseBytes_lookup_map (name : String) (offset : Nat) (divisor : ℚ)
    (bytes : List Nat) (info : Dict) (hd : divisor ≠ 0)
    (hnone : dictLookup info name = none) :
    dictLookup (parseBytes name offset divisor bytes info) name =
      (decodedField bytes offset divisor).map PyVal.num := by
  rw [parseBytes_lookup_self name offset divisor bytes info hd]
  cases h : decodedField bytes offset divisor
  · simpa using hnone
  · simp

theorem take_data_eq (s : String) (n : Nat) (t : String) (h : pyTake s n = t) :
    s.data.take n = t.data :=
  congrArg String.data h

/-- C4 (amended): the HID decoder dispatches on the trimmed firmware
prefix exactly as claimed (TEMPerF1.4 offset 2 divisor 256;
TEMPerGold_V3. with trailing digit ignored, offset 2 divisor 100;
TEMPerX_V3.1 and TEMPerX_V3.3 with the four fields at offsets 2, 4,
10, 12 divisor 100; anything else an error with no sensor fields),
but the unknown-firmware error string is capitalized and wraps the hex
dump in bytes-literal quoting: Unknown firmware id colon b-quote hex
quote. -/
theorem c4_hid_dispatch (firmware bytes : List Nat) :
    (pyTake (pystrip (latin1Decode firmware)) 10 = "TEMPerF1.4" →
      dictLookup (readHidrawDecode firmware bytes) "internal temperature" =
        (decodedField bytes 2 256).map PyVal.num ∧
      dictLookup (readHidrawDecode firmware bytes) "internal humidity" = none ∧
      dictLookup (readHidrawDecode firmware bytes) "external temperature" = none ∧
      dictLookup (readHidrawDecode firmware bytes) "external humidity" = none ∧
      dictLookup (readHidrawDecode firmware bytes) "error" = none) ∧
    (pyTake (pystrip (latin1Decode firmware)) 14 = "TEMPerGold_V3." →
      dictLookup (readHidrawDecode firmware bytes) "internal temperature" =
        (decodedField bytes 2 100).map PyVal.num ∧
      dictLookup (readHidrawDecode firmware bytes) "internal humidity" = none ∧
      dictLookup (readHidrawDecode firmware bytes) "external temperature" = none ∧
      dictLookup (readHidrawDecode firmware bytes) "external humidity" = none ∧
      dictLookup (readHidrawDecode firmware bytes) "error" = none) ∧
    ((pyTake (pystrip (latin1Decode firmware)) 12 = "TEMPerX_V3.1" ∨
      pyTake (pystrip (latin1Decode firmware)) 12 = "TEMPerX_V3.3") →
      dictLookup (readHidrawDecode firmware bytes) "internal temperature" =
        (decodedField bytes 2 100).map PyVal.num ∧
      dictLookup (readHidrawDecode firmware bytes) "internal humidity" =
        (decodedField bytes 4 100).map PyVal.num ∧
      dictLookup (readHidrawDecode firmware bytes) "external temperature" =
        (decodedField bytes 10 100).map PyVal.num ∧
      dictLookup (readHidrawDecode firmware bytes) "external humidity" =
        (decodedField bytes 12 100).map PyVal.num ∧
      dictLookup (readHidrawDecode firmware bytes) "error" = none) ∧
    (pyTake (pystrip (latin1Decode firmware)) 10 ≠ "TEMPerF1.4" →
      pyTake (pystrip (latin1Decode firmware)) 14 ≠ "TEMPerGold_V3." →
      pyTake (pystrip (latin1Decode firmware)) 12 ≠ "TEMPerX_V3.1" →
      pyTake (pystrip (latin1Decode firmware)) 12 ≠ "TEMPerX_V3.3" →
      dictLookup (readHidrawDecode firmware bytes) "error" =
        some (.str ("Unknown firmware " ++ pystrip (latin1Decode firmware) ++ ": " ++
          pyBytesRepr (hexStr bytes))) ∧
      dictLookup (readHidrawDecode firmware bytes) "internal temperature" = none ∧
      dictLookup (readHidrawDecode firmware bytes) "internal humidity" = none ∧
      dictLookup (readHidrawDecode firmware bytes) "external temperature" = none ∧
      dictLookup (readHidrawDecode firmware bytes) "external humidity" = none) := by
  have h256 : (256 : ℚ) ≠ 0 := by norm_num
  have h100 : (100 : ℚ) ≠ 0 := by norm_num
  refine ⟨?_, ?_, ?_, ?_⟩
  · intro h1
    have hres : readHidrawDecode firmware bytes =
        parseBytes "internal temperature" 2 256 bytes
          (dictInsert [("firmware", .str (pystrip (latin1Decode firmware))),
            ("hex_firmware", .str (hexStr firmware)),
            ("hex_data", .str (hexStr bytes))] "firmware"
            (.str (pyTake (pystrip (latin1Decode firmware)) 10))) := by
      simp only [readHidrawDecode]
      rw [if_pos h1]
    rw [hres]
    refine ⟨parseBytes_lookup_map _ _ _ _ _ h256 (by simp [dictInsert, dictLookup]),
      ?_, ?_, ?_, ?_⟩ <;>
      rw [parseBytes_lookup_other _ _ _ _ _ _ (by decide)] <;>
      simp [dictInsert, dictLookup]
  · intro h2
    have hne1 : pyTake (pystrip (latin1Decode firmware)) 10 ≠ "TEMPerF1.4" := by
      intro hc
      have e1 := take_data_eq _ _ _ h2
      have e2 := take_data_eq _ _ _ hc
      have : ("TEMPerGold_V3.".data).take 10 = "TEMPerF1.4".data := by
        rw [← e1, List.take_take, show min 10 14 = 10 from rfl, e2]
      exact absurd this (by decide)
    have hres : readHidrawDecode firmware bytes =
        parseBytes "internal temperature" 2 100 bytes
          (dictInsert [("firmware", .str (pystrip (latin1Decode firmware))),
            ("hex_firmware", .str (hexStr firmware)),
            ("hex_data", .str (hexStr bytes))] "firmware"
            (.str (pyTake (pystrip (latin1Decode firmware)) 15))) := by
      simp only [readHidrawDecode]
      rw [if_neg hne1, if_pos h2]
    rw [hres]
    refine ⟨parseBytes_lookup_map _ _ _ _ _ h100 (by simp [dictInsert, dictLookup]),
      ?_, ?_, ?_, ?_⟩ <;>
      rw [parseBytes_lookup_other _ _ _ _ _ _ (by decide)] <;>
      simp [dictInsert, dictLookup]
  · intro h3
    have e3 : (pystrip (latin1Decode firmware)).data.take 12 = "TEMPerX_V3.1".data ∨
        (pystrip (latin1Decode firmware)).data.take 12 = "TEMPerX_V3.3".data := by
      rcases h3 with hc | hc
      · exact Or.inl (take_data_eq _ _ _ hc)
      · exact Or.inr (take_data_eq _ _ _ hc)
    have hne1 : pyTake (pystrip (latin1Decode firmware)) 10 ≠ "TEMPerF1.4" := by
      intro hc
      have e2 := take_data_eq _ _ _ hc
      rcases e3 with e1 | e1
      · have : ("TEMPerX_V3.1".data).take 10 = "TEMPerF1.4".data := by
          rw [← e1, List.take_take, show min 10 12 = 10 from rfl, e2]
        exact absurd this (by decide)
      · have : ("TEMPerX_V3.3".data).take 10 = "TEMPerF1.4".data := by
          rw [← e1, List.take_take, show min 10 12 = 10 from rfl, e2]
        exact absurd this (by decide)
    have hne2 : pyTake (pystrip (latin1Decode firmware)) 14 ≠ "TEMPerGold_V3." := by
      intro hc
      have e2 := take_data_eq _ _ _ hc
      rcases e3 with e1 | e1
      · have : ("TEMPerGold_V3.".data).take 12 = "TEMPerX_V3.1".data := by
          rw [← e2, List.take_take, show min 12 14 = 12 from rfl, e1]
        exact absurd this (by decide)
      · have : ("TEMPerGold_V3.".data).take 12 = "TEMPerX_V3.3".data := by
          rw [← e2, List.take_take, show min 12 14 = 12 from rfl, e1]
        exact absurd this (by decide)
    have hres : readHidrawDecode firmware bytes =
        parseBytes "external humidity" 12 100 bytes
          (parseBytes "external temperature" 10 100 bytes
            (parseBytes "internal humidity" 4 100 bytes
              (parseBytes "internal temperature" 2 100 bytes
                (dictInsert [("firmware", .str (pystrip (latin1Decode firmware))),
                  ("hex_firmware", .str (hexStr firmware)),
                  ("hex_data", .str (hexStr bytes))] "firmware"
                  (.str (pyTake (pystrip (latin1Decode firmware)) 12)))))) := by
      simp only [readHidrawDecode]
      rw [if_neg hne1, if_neg hne2, if_pos h3]
    rw [hres]
    refine ⟨?_, ?_, ?_, ?_, ?_⟩
    · rw [parseBytes_lookup_other _ _ _ _ _ _ (by decide),
        parseBytes_lookup_other _ _ _ _ _ _ (by decide),
        parseBytes_lookup_other _ _ _ _ _ _ (by decide)]
      exact parseBytes_lookup_map _ _ _ _ _ h100 (by simp [dictInsert, dictLookup])
    · rw [parseBytes_lookup_other _ _ _ _ _ _ (by decide),
        parseBytes_lookup_other _ _ _ _ _ _ (by decide)]
      exact parseBytes_lookup_map _ _ _ _ _ h100
        (by rw [parseBytes_lookup_other _ _ _ _ _ _ (by decide)]
            simp [dictInsert, dictLookup])
    · rw [parseBytes_lookup_other _ _ _ _ _ _ (by decide)]
      exact parseBytes_lookup_map _ _ _ _ _ h100
        (by rw [parseBytes_lookup_other _ _ _ _ _ _ (by decide),
              parseBytes_lookup_other _ _ _ _ _ _ (by decide)]
            simp [dictInsert, dictLookup])
    · exact parseBytes_lookup_map _ _ _ _ _ h100
        (by rw [parseBytes_lookup_other _ _ _ _ _ _ (by decide),
              parseBytes_lookup_other _ _ _ _ _ _ (by decide),
              parseBytes_lookup_other _ _ _ _ _ _ (by decide)]
            simp [dictInsert, dictLookup])
    · rw [parseBytes_lookup_other _ _ _ _ _ _ (by decide),
        parseBytes_lookup_other _ _ _ _ _ _ (by decide),
        parseBytes_lookup_other _ _ _ _ _ _ (by decide),
        parseBytes_lookup_other _ _ _ _ _ _ (by decide)]
      simp [dictInsert, dictLookup]
  · intro hn1 hn2 hn3 hn4
    have hres : readHidrawDecode firmware bytes =
        dictInsert [("firmware", .str (pystrip (latin1Decode firmware))),
          ("hex_firmware", .str (hexStr firmware)),
          ("hex_data", .str (hexStr bytes))] "error"
          (.str ("Unknown firmware " ++ pystrip (latin1Decode firmware) ++ ": " ++
            pyBytesRepr (hexStr bytes))) := by
      simp only [readHidrawDecode]
      rw [if_neg hn1, if_neg hn2, if_neg (by
        rintro (hc | hc)
        · exact hn3 hc
        · exact hn4 hc)]
    rw [hres]
    refine ⟨?_, ?_, ?_, ?_, ?_⟩ <;> simp [dictInsert, dictLookup]

/-- C4 counterexample: for firmware AAA and data bytes 01 02 the error
string the code produces is capitalized and carries the bytes-literal
quoting around the hex dump, so it differs from the claimed template
string. -/
theorem c4_counterexample :
    dictLookup (readHidrawDecode [65, 65, 65] [1, 2]) "error" =
      some (.str ("Unknown firmware AAA: " ++ pyBytesRepr "0102")) ∧
    ("Unknown firmware AAA: " ++ pyBytesRepr "0102") ≠ "unknown firmware AAA: 0102" := by
  decide

/-- C4 witness: a TEMPerF1.4 firmware response decodes the internal
temperature from offset 2 with divisor 256 and sets no error. -/
theorem c4_witness :
    dictLookup (readHidrawDecode [84, 69, 77, 80, 101, 114, 70, 49, 46, 52] [0, 0, 1, 0])
        "internal temperature" = (decodedField [0, 0, 1, 0] 2 256).map PyVal.num ∧
    dictLookup (readHidrawDecode [84, 69, 77, 80, 101, 114, 70, 49, 46, 52] [0, 0, 1, 0])
        "error" = none :=
  have h := (c4_hid_dispatch [84, 69, 77, 80, 101, 114, 70, 49, 46, 52] [0, 0, 1, 0]).1
    (by decide)
  ⟨h.1, h.2.2.2.2⟩

/-- C5: acquireAll yields, in ascending (busnum * 1000 + devnum) order,
exactly the known-id registry entries; an entry with no candidate
interfaces yields the no-devices error dict and involves no decoder,
any other entry is dispatched on the last element of its device list
by hidraw or tty leaf-name prefix, and the decoder dict wins key
collisions against the identity dict. -/
theorem c5_acquire_all (hid serial : String → Dict) (isKnown : Nat → Nat → Bool)
    (reg : List (String × Dev)) :
    (temperRead hid serial isKnown reg).1 =
      ((sortDevs reg).filter (fun pd => isKnown pd.2.vendorid pd.2.productid)).map
        (fun pd =>
          if pd.2.devices = [] then devToDict (devSetErr pd.2)
          else mergeDicts (devToDict pd.2)
            (usbReadDispatch hid serial (pd.2.devices.getLastD ""))) ∧
    (sortDevs reg).Pairwise (fun a b => devKey a ≤ devKey b) ∧
    List.Perm (sortDevs reg) reg ∧
    (∀ a b : Dict, ∀ q : String, (b.map Prod.fst).Nodup → dictLookup b q ≠ none →
      dictLookup (mergeDicts a b) q = dictLookup b q) := by
  refine ⟨?_, sortDevs_pairwise reg, sortDevs_perm reg,
    fun a b q hb h => dictLookup_merge a b q hb h⟩
  unfold temperRead
  exact temperGo_fst hid serial isKnown (sortDevs reg) reg

/-- C5 witness: merging a decoder dict over an identity dict keeps the
decoder binding on a key collision. -/
theorem c5_witness :
    dictLookup (mergeDicts [("vendorid", PyVal.int 1)] [("vendorid", PyVal.int 2)])
        "vendorid" = dictLookup [("vendorid", PyVal.int 2)] "vendorid" ∧
    dictLookup (mergeDicts [("vendorid", PyVal.int 1)] [("vendorid", PyVal.int 2)])
        "vendorid" = some (PyVal.int 2) :=
  have h := (c5_acquire_all hidStub serialStub (isKnownId none) []).2.2.2
    [("vendorid", PyVal.int 1)] [("vendorid", PyVal.int 2)] "vendorid"
    (by decide) (by decide)
  ⟨h, h.trans (by decide)⟩

/-- C6 counterexample: acquiring over a registry with a known device
that has no candidate interfaces changes the registry entry in place
(the error key is assigned into the shared dict), so acquireAll does
not leave every entry as the scanner built it. -/
theorem c6_counterexample :
    (temperRead hidStub serialStub (isKnownId none) regC6).2 ≠ regC6 := by
  decide

/-- C6 (amended): acquireAll leaves every registry entry exactly as
the scanner built it, except that a known-id entry with an empty
candidate interface list gets the no-devices error key assigned in
place; nothing else in the registry mapping changes. -/
theorem c6_registry_mutation (hid serial : String → Dict) (isKnown : Nat → Nat → Bool)
    (reg : List (String × Dev)) (h : (reg.map Prod.fst).Nodup) :
    (temperRead hid serial isKnown reg).2 =
      reg.map (fun qe =>
        if isKnown qe.2.vendorid qe.2.productid ∧ qe.2.devices = [] then
          (qe.1, devSetErr qe.2)
        else qe) :=
  temperRead_snd_char hid serial isKnown reg h

/-- C6 witness: on the one-entry registry the returned registry has the
error key set in the stored entry. -/
theorem c6_witness :
    (temperRead hidStub serialStub (isKnownId none) regC6).2 =
      [("/sys/bus/usb/devices/1-1",
        { vendorid := 0x0c45, productid := 0x7401, manufacturer := "",
          product := "TEMPer", busnum := 1, devnum := 2, devices := [],
          error := some "no hid/tty devices available" })] :=
  (c6_registry_mutation hidStub serialStub (isKnownId none) regC6 (by decide)).trans
    (by decide)

/-- C7 counterexample: the scan collects the name ttyUSB0 (the code
patterns are a contained tty followed anywhere later by a digit, and a
contained hidraw followed immediately by a digit), but ttyUSB0 does
not match the claimed shape tty-followed-by-digits. -/
theorem c7_counterexample :
    candidates treeTtyUsb = ["ttyUSB0"] ∧ specClaimShape "ttyUSB0" = false := by
  decide

/-- C7 (amended): the candidate interfaces of a scanned directory are
the deduplicated, string-sorted set of entry names found anywhere in
the visited subtree (descending only into non-symlink directories)
that contain tty followed, after any non-newline run, by a digit, or
contain hidraw immediately followed by a digit. -/
theorem c7_candidates (t : DirTree) :
    (candidates t).Pairwise (fun a b => a ≤ b) ∧ (candidates t).Nodup ∧
    (∀ x, x ∈ candidates t ↔
      x ∈ subtreeNames t ∧ (matchTty x.data || matchHidraw x.data) = true) :=
  ⟨candidates_sorted t, candidates_nodup t, fun x => mem_candidates t x⟩

/-- C7 witness: ttyUSB0 is collected from the concrete tree and
matches the tty code pattern. -/
theorem c7_witness :
    "ttyUSB0" ∈ candidates treeTtyUsb ∧
    (matchTty "ttyUSB0".data || matchHidraw "ttyUSB0".data) = true :=
  ⟨((c7_candidates treeTtyUsb).2.2 "ttyUSB0").mpr ⟨by decide, by decide⟩, by decide⟩

/-- C8 counterexample: a device directory whose idVendor reads 0c45
but whose idProduct file is unreadable makes _get_usb_device raise
ValueError (int of the empty string), so the scan fails as a whole
instead of yielding an entry with the attribute absent. -/
theorem c8_counterexample :
    getUsbDevice fsC8 [] "/sys/bus/usb/devices/1-1" = .error .valueError := by
  decide

/-- C8 (amended): a directory whose idVendor reads as empty (missing
or unreadable) is skipped without error; a read failure of
manufacturer or product is treated as the empty string and the
directory still yields an entry; but a failed int parse of the
idProduct, busnum or devnum attribute raises ValueError out of the
scan, and a read failure of any of those three is such a failed parse,
because the unreadable file reads as the empty string and the empty
string (like any unparseable content) fails int. -/
theorem c8_scan_attrs (fs : String → Option String) (cands : List String)
    (dirname : String) :
    (readFile fs (dirname ++ "/idVendor") = "" →
      getUsbDevice fs cands dirname = .ok none) ∧
    (∀ v, parseHex (readFile fs (dirname ++ "/idVendor")) = some v →
      parseHex (readFile fs (dirname ++ "/idProduct")) = none →
      getUsbDevice fs cands dirname = .error .valueError) ∧
    (∀ v p,
      parseHex (readFile fs (dirname ++ "/idVendor")) = some v →
      parseHex (readFile fs (dirname ++ "/idProduct")) = some p →
      parseDec (readFile fs (dirname ++ "/busnum")) = none →
      getUsbDevice fs cands dirname = .error .valueError) ∧
    (∀ v p bn,
      parseHex (readFile fs (dirname ++ "/idVendor")) = some v →
      parseHex (readFile fs (dirname ++ "/idProduct")) = some p →
      parseDec (readFile fs (dirname ++ "/busnum")) = some bn →
      parseDec (readFile fs (dirname ++ "/devnum")) = none →
      getUsbDevice fs cands dirname = .error .valueError) ∧
    (∀ v p bn dn,
      parseHex (readFile fs (dirname ++ "/idVendor")) = some v →
      parseHex (readFile fs (dirname ++ "/idProduct")) = some p →
      parseDec (readFile fs (dirname ++ "/busnum")) = some bn →
      parseDec (readFile fs (dirname ++ "/devnum")) = some dn →
      getUsbDevice fs cands dirname =
        .ok (some
          { vendorid := v, productid := p,
            manufacturer := readFile fs (dirname ++ "/manufacturer"),
            product := readFile fs (dirname ++ "/product"),
            busnum := bn, devnum := dn, devices := cands, error := none })) ∧
    (∀ path, fs path = none → readFile fs path = "") ∧
    (parseHex "" = none ∧ parseDec "" = none) := by
  have hne : ∀ v, parseHex (readFile fs (dirname ++ "/idVendor")) = some v →
      readFile fs (dirname ++ "/idVendor") ≠ "" := by
    intro v hv he
    rw [he] at hv
    simp [parseHex] at hv
  refine ⟨?_, ?_, ?_, ?_, ?_, ?_, by decide, by decide⟩
  · intro he
    simp only [getUsbDevice]
    rw [if_pos he]
  · intro v hv hpn
    simp only [getUsbDevice]
    rw [if_neg (hne v hv), hv, hpn]
  · intro v p hv hp hbn
    simp only [getUsbDevice]
    rw [if_neg (hne v hv), hv, hp, hbn]
  · intro v p bn hv hp hbn hdn
    simp only [getUsbDevice]
    rw [if_neg (hne v hv), hv, hp, hbn, hdn]
  · intro v p bn dn hv hp hbn hdn
    simp only [getUsbDevice]
    rw [if_neg (hne v hv), hv, hp, hbn, hdn]
  · intro path h
    simp [readFile, h]

/-- C8 witness: a directory with idVendor, idProduct, busnum, devnum
and product readable but manufacturer unreadable still yields an
entry, with the manufacturer empty. -/
theorem c8_witness :
    getUsbDevice fsC8W [] "/d" =
      .ok (some
        { vendorid := 0x0c45, productid := 0x7401, manufacturer := "",
          product := "TEMPer", busnum := 1, devnum := 2, devices := [],
          error := none }) :=
  ((c8_scan_attrs fsC8W [] "/d").2.2.2.2.1 0x0c45 0x7401 1 2 (by decide) (by decide)
    (by decide) (by decide)).trans (by decide)

/-- C9: the concatenated serial reply of scenario B yields internal
temperature 21.5, internal humidity 45 and external temperature 19;
and a reply matching neither pattern yields a dict carrying only the
firmware id, with no sensor fields and no error field. -/
theorem c9_serial_decode :
    (readSerialParse "TEMPER2V1.3" "Temp-Inner:21.50,45Temp-Outer:19.00" =
      .ok [("firmware", .str "TEMPER2V1.3"), ("internal temperature", .num (43 / 2)),
        ("internal humidity", .num 45), ("external temperature", .num 19)]) ∧
    (∀ firmware reply : String, searchTempInner reply.data = none →
      searchTempOuter reply.data = none →
      readSerialParse firmware reply = .ok [("firmware", .str firmware)]) := by
  constructor
  · decide
  · intro fw reply h1 h2
    simp [readSerialParse, h1, h2]

/-- C9 witness: a reply matching neither pattern yields only the
firmware id. -/
theorem c9_witness :
    readSerialParse "TEMPER1F1.0" "no sensor data here" =
      .ok [("firmware", .str "TEMPER1F1.0")] :=
  c9_serial_decode.2 "TEMPER1F1.0" "no sensor data here" (by decide) (by decide)

/-- C10: a GET request whose ids match a known registry entry with an
empty candidate interface list makes get_device raise an uncaught
IndexError when indexing the last interface (no HTTP response),
whereas the aggregate read path turns the same entry into a result
dict carrying the no-devices error. -/
theorem c10_single_device (isKnown : Nat → Nat → Bool) (hid serial : String → Dict)
    (protocol hostname : String) (port : Nat) (pre post : List (String × Dev))
    (p : String) (d : Dev) (vendorid productid : Nat)
    (hpre : ∀ qe ∈ pre, isKnown qe.2.vendorid qe.2.productid = false ∨
      ¬(vendorid = qe.2.vendorid ∧ productid = qe.2.productid))
    (hk : isKnown d.vendorid d.productid = true)
    (hv : vendorid = d.vendorid) (hp : productid = d.productid)
    (hdev : d.devices = []) :
    getDevice isKnown hid serial protocol hostname port (pre ++ (p, d) :: post) "GET"
      vendorid productid = .error .indexError ∧
    (temperRead hid serial isKnown [(p, d)]).1 = [devToDict (devSetErr d)] := by
  constructor
  · revert hpre
    induction pre with
    | nil =>
      intro _
      simp only [List.nil_append, getDevice]
      rw [if_pos hk, if_pos ⟨hv, hp⟩, if_neg (by decide), hdev]
      rfl
    | cons qe pres ih =>
      intro hpre
      have hq := hpre qe (List.mem_cons_self qe pres)
      have hrest : ∀ x ∈ pres, isKnown x.2.vendorid x.2.productid = false ∨
          ¬(vendorid = x.2.vendorid ∧ productid = x.2.productid) :=
        fun x hx => hpre x (List.mem_cons_of_mem qe hx)
      obtain ⟨q, e⟩ := qe
      rcases hq with hq | hq
      · simp only [List.cons_append, getDevice]
        rw [if_neg (by simp [hq])]
        exact ih hrest
      · simp only [List.cons_append, getDevice]
        by_cases hke : isKnown e.vendorid e.productid = true
        · rw [if_pos hke, if_neg hq]
          exact ih hrest
        · rw [if_neg hke]
          exact ih hrest
  · simp [temperRead, sortDevs, insByKey, temperGo, hk, hdev]

/-- C10 witness: the concrete one-entry registry with a known id and no
interfaces gives IndexError on the single-device GET and the error
result on the aggregate path. -/
theorem c10_witness :
    getDevice (isKnownId none) hidStub serialStub "http" "localhost" 80 regC6 "GET"
        3141 29697 = .error .indexError ∧
    (temperRead hidStub serialStub (isKnownId none)
      [("/sys/bus/usb/devices/1-1", devC6)]).1 = [devToDict (devSetErr devC6)] := by
  have h := c10_single_device (isKnownId none) hidStub serialStub "http" "localhost" 80
    [] [] "/sys/bus/usb/devices/1-1" devC6 3141 29697
    (fun qe hq => absurd hq (List.not_mem_nil qe)) (by decide) (by decide) (by decide)
    (by decide)
  exact ⟨h.1, h.2⟩
